import Mathlib

/-!
Template search aggregation (`select-template.js`).

A shallow embedding of the search-aggregation logic of the `SelectTemplate`
screen: the visibility filter (`handleHiddenTemplates`), the per-keyword and
per-page merges of `fetchTemplates` and `fetchAllTemplatesByPage`, the
cross-category composition (`refinedSearchResults`, `getTemplates`,
`renderTemplates`) and the event-driven control flow of the two fetchers.

Conventions of the embedding:

* JavaScript arrays are lists with value semantics; object identity and
  in-place aliasing between the closure-local arrays and the store are not
  modelled.
* A bucket always carries a `designs` array (so `Array.isArray( item.designs )`
  holds and the optional chaining on `designs` never short-circuits).  A design
  may lack its `features` object, and `aiBuilderVars` or its
  `hide_site_features` may be undefined.
* An `async` function is split at its `await`: one function for the part that
  runs synchronously at the call and one for the continuation that runs when
  the awaited promise settles.  Component state (`useState`, `useReducer`, the
  store, refs) is one explicit record read at its current value.
* `controller.abort()` is recorded in the state.  How the transport settles a
  call afterwards is an event of its own: it may reject with `AbortError`, and
  it may still fulfil when the response had arrived before the abort.
* `toLowerCase` is modelled on the ASCII letters; `trim` removes the
  ECMAScript white space and line terminator characters.
-/

namespace SelectTemplate

/-! ## Data model -/

/-- The `features` object of a design; only `features.ecommerce` is read. -/
structure Features where
  ecommerce : Option String
deriving DecidableEq, Repr

/-- A catalog design: `uuid`, `is_premium` (by truthiness) and `features`
(`none` when the property is missing). -/
structure Design where
  uuid : Nat
  is_premium : Bool
  features : Option Features
deriving DecidableEq, Repr

/-- A category bucket `{ match, designs }`; `matchName` stands for the
property `match`, the empty string for a falsy `match`. -/
structure Bucket where
  matchName : String
  designs : List Design
deriving DecidableEq, Repr

/-- The global `aiBuilderVars` as far as `handleHiddenTemplates` reads it. -/
structure AiBuilderVars where
  hide_site_features : Option (List String)
  show_premium_templates : Bool
deriving DecidableEq, Repr

/-- The `name` of a thrown or rejected JavaScript error. -/
inductive JSError where
  | AbortError
  | TypeError
  | Error
deriving DecidableEq, Repr

/-- Result of running code that may throw. -/
inductive Outcome (α : Type) where
  | returned (value : α)
  | threw (error : JSError)
deriving DecidableEq, Repr

/-! ## `handleHiddenTemplates` -/

/-- The value of `aiBuilderVars?.hide_site_features?.includes( 'ecommerce' )`
by truthiness. -/
def hideEcommerceTemplates (vars : Option AiBuilderVars) : Bool :=
  match vars with
  | none => false
  | some v =>
    match v.hide_site_features with
    | none => false
    | some fs => fs.contains "ecommerce"

/-- The value of `! aiBuilderVars?.show_premium_templates`. -/
def hidePremiumTemplates (vars : Option AiBuilderVars) : Bool :=
  match vars with
  | none => true
  | some v => !v.show_premium_templates

/-- The test `template.features.ecommerce !== 'yes'`: reading `ecommerce` of a
missing `features` throws a `TypeError`. -/
def ecommerceTest (template : Design) : Outcome Bool :=
  match template.features with
  | none => .threw .TypeError
  | some f => .returned (f.ecommerce != some "yes")

/-- The call `designs.filter( template => template.features.ecommerce !== 'yes' )`. -/
def filterEcommerce : List Design → Outcome (List Design)
  | [] => .returned []
  | template :: rest =>
    match ecommerceTest template with
    | .threw e => .threw e
    | .returned keep =>
      match filterEcommerce rest with
      | .threw e => .threw e
      | .returned kept => .returned (if keep then template :: kept else kept)

/-- The second `result.map` of `handleHiddenTemplates`. -/
def mapFilterEcommerce : List Bucket → Outcome (List Bucket)
  | [] => .returned []
  | item :: rest =>
    match filterEcommerce item.designs with
    | .threw e => .threw e
    | .returned ds =>
      match mapFilterEcommerce rest with
      | .threw e => .threw e
      | .returned items => .returned ({ item with designs := ds } :: items)

/-- The function `handleHiddenTemplates( result )`: first the premium pass,
then the e-commerce pass over what the premium pass kept. -/
def handleHiddenTemplates (vars : Option AiBuilderVars) (result : List Bucket) :
    Outcome (List Bucket) :=
  let result1 :=
    if hidePremiumTemplates vars then
      result.map (fun item =>
        { item with designs := item.designs.filter (fun template => !template.is_premium) })
    else result
  if hideEcommerceTemplates vars then mapFilterEcommerce result1 else .returned result1

/-- Whether the e-commerce feature flag of a design is set; a design without
a feature map has no flag set. -/
def ecommerceFlagSet (d : Design) : Bool :=
  match d.features with
  | none => false
  | some f => f.ecommerce == some "yes"

/-- Reference definition of the visibility filter, after the specification:
each bucket keeps, in order, the designs that are not premium (when premium is
hidden) and whose e-commerce flag is not set (when e-commerce is hidden); a
missing feature map counts as the flag being absent. -/
def visibilityFilter_spec (hidePremium hideEcommerce : Bool) (buckets : List Bucket) :
    List Bucket :=
  buckets.map (fun b =>
    { b with designs := b.designs.filter (fun d =>
        !(hidePremium && d.is_premium) && !(hideEcommerce && ecommerceFlagSet d)) })

/-! ## Bucket merges -/

/-- The designs of `incoming` whose uuid `existing` does not hold, as computed
by `incoming.filter( t => ! existing.find( e => e.uuid === t.uuid ) )`. -/
def newDesignsByFind (existing incoming : List Design) : List Design :=
  incoming.filter (fun template =>
    (existing.find? (fun existingTemplate => existingTemplate.uuid == template.uuid)).isNone)

/-- One iteration of `result.forEach( ( item, indx ) => ... )` in
`fetchTemplates` (lines 246-260): `none` when `results[ indx ]` is undefined
and reading its `designs` throws. -/
def keywordMergeItem (results : List Bucket) (item : Bucket) (indx : Nat) :
    Option (List Bucket) :=
  if item.designs.length > 0 then
    match results.get? indx with
    | none => none
    | some r =>
      some (results.set indx { r with designs := r.designs ++ newDesignsByFind r.designs item.designs })
  else some results

/-- The loop `result.forEach( ( item, indx ) => ... )` from index `indx` on;
the flag tells whether an iteration threw, which ends the loop and leaves the
assignments made so far. -/
def keywordMergeLoop (results : List Bucket) : List Bucket → Nat → List Bucket × Bool
  | [], _ => (results, false)
  | item :: rest, indx =>
    match keywordMergeItem results item indx with
    | none => (results, true)
    | some results1 => keywordMergeLoop results1 rest (indx + 1)

/-- The bucket merge of a keyword result into the closure-local `results`
(`fetchTemplates`, lines 243-261). -/
def keywordBucketMerge (results result : List Bucket) : List Bucket × Bool :=
  if results.length = 0 then (result, false) else keywordMergeLoop results result 0

/-- The call `updatedSearchResults.findIndex( sr => sr?.match === name )`;
`none` stands for `-1`. -/
def findIndex (name : String) : List Bucket → Option Nat
  | [] => none
  | searchResult :: rest =>
    if searchResult.matchName = name then some 0
    else (findIndex name rest).map (· + 1)

/-- One iteration of `result.forEach( item => ... )` in
`fetchAllTemplatesByPage` (lines 357-377). -/
def pageMergeItem (updatedSearchResults : List Bucket) (item : Bucket) : List Bucket :=
  if item.matchName = "" then updatedSearchResults
  else
    match findIndex item.matchName updatedSearchResults with
    | none => updatedSearchResults
    | some indx =>
      match updatedSearchResults.get? indx with
      | none => updatedSearchResults
      | some b =>
        let existingDesigns := b.designs.map (fun design => design.uuid)
        let newDesigns :=
          item.designs.filter (fun designItem => !existingDesigns.contains designItem.uuid)
        updatedSearchResults.set indx { b with designs := b.designs ++ newDesigns }

/-- The bucket merge of a page into `searchResults`
(`fetchAllTemplatesByPage`, lines 355-377). -/
def pageBucketMerge (searchResults result : List Bucket) : List Bucket :=
  result.foldl pageMergeItem searchResults

/-- Reference definition of the merge of one incoming bucket, after the
specification: the existing bucket with the same category name receives the
incoming designs whose identifier it does not hold yet, in incoming order;
when there is none the incoming bucket is appended as it is. -/
def mergeBucket_spec : List Bucket → Bucket → List Bucket
  | [], incoming => [incoming]
  | b :: rest, incoming =>
    if b.matchName = incoming.matchName then
      { b with designs := b.designs ++
          incoming.designs.filter (fun d => d.uuid ∉ b.designs.map (fun e => e.uuid)) } :: rest
    else b :: mergeBucket_spec rest incoming

/-- Reference definition of `mergeBuckets( existing, incoming )`, after the
specification. -/
def mergeBuckets_spec (existing incoming : List Bucket) : List Bucket :=
  incoming.foldl mergeBucket_spec existing

/-- Reference definition of the positional merge: incoming bucket `i` goes to
the existing bucket at the same index `i`, which receives the incoming designs
whose identifier it does not hold yet, in incoming order. -/
def mergeByPosition_spec : List Bucket → List Bucket → List Bucket
  | [], _ => []
  | b :: rest, [] => b :: rest
  | b :: rest, incoming :: more =>
    { b with designs := b.designs ++
        incoming.designs.filter (fun d => d.uuid ∉ b.designs.map (fun e => e.uuid)) } ::
      mergeByPosition_spec rest more

/-! ## Flat merges -/

/-- The loop of `fetchTemplates` (lines 264-277) that pushes onto
`allTemplatesList` the designs of each bucket whose uuid the list does not
hold when the bucket is reached. -/
def keywordFlatMerge (allTemplatesList : List Design) (result : List Bucket) : List Design :=
  result.foldl (fun acc item => acc ++ newDesignsByFind acc item.designs) allTemplatesList

/-- The list `updatedAllTemplates` of `fetchAllTemplatesByPage` (lines
350-353): `[ ...templateList, ...result.map( item => item.designs ).flat() ]`. -/
def pageFlatMerge (templateList : List Design) (result : List Bucket) : List Design :=
  templateList ++ (result.map (fun item => item.designs)).flatten

/-! ## Composition for display -/

/-- One step of the `reduceRight` callback of `refinedSearchResults`, at
`index`.  The accumulator is the array being reduced, so the item visited is
the accumulator's own element at `index`. -/
def refineStep (acc : List Bucket) (index : Nat) : List Bucket :=
  match acc.get? index with
  | none => acc
  | some item =>
    if item.designs.length = 0 then acc
    else
      let otherDesigns :=
        (acc.filter (fun designItem => item.matchName != designItem.matchName)).flatMap
          (fun otherItem => otherItem.designs)
      let updatedDesigns :=
        item.designs.filter (fun designItem =>
          (otherDesigns.find? (fun otherDesign => otherDesign.uuid == designItem.uuid)).isNone)
      acc.set index { item with designs := updatedDesigns }

/-- The memo `refinedSearchResults`: `templateSearchResults.reduceRight( ...,
templateSearchResults )`, visiting the indices from the last one down to 0. -/
def refinedSearchResults (templateSearchResults : List Bucket) : List Bucket :=
  if templateSearchResults.length = 0 then []
  else
    (List.range templateSearchResults.length).foldr
      (fun index acc => refineStep acc index) templateSearchResults

/-- The constants of `TEMPLATE_TYPE`. -/
inductive TemplateType where
  | RECOMMENDED
  | PARTIAL
  | GENERIC
deriving DecidableEq, Repr

/-- The expression `refinedSearchResults?.[ i ]?.designs || []`. -/
def designsAt (refined : List Bucket) (i : Nat) : List Design :=
  match refined.get? i with
  | none => []
  | some b => b.designs

/-- The callback `getTemplates( type )`. -/
def getTemplates (refined : List Bucket) : TemplateType → List Design
  | .RECOMMENDED => designsAt refined 0
  | .PARTIAL => designsAt refined 1
  | .GENERIC => designsAt refined 2

/-- The list `filteredGenericTemplates` of `renderTemplates`. -/
def filteredGenericTemplates (refined : List Bucket) : List Design :=
  let recommendedTemplateIdSet := (getTemplates refined .RECOMMENDED).map (fun d => d.uuid)
  let partialTemplateIdSet := (getTemplates refined .PARTIAL).map (fun d => d.uuid)
  (getTemplates refined .GENERIC).filter (fun d =>
    !recommendedTemplateIdSet.contains d.uuid && !partialTemplateIdSet.contains d.uuid)

/-- A rendered `ColumnItem`: its `key`, `template` and `position`. -/
structure ColumnItem where
  key : Nat
  template : Design
  position : Nat
deriving DecidableEq, Repr

/-- The items `templates.map( ( template, index ) => <ColumnItem ... /> )`
with `position = index + 1 + offset`, from `index` on. -/
def columnItems (offset : Nat) : List Design → Nat → List ColumnItem
  | [], _ => []
  | template :: rest, index =>
    { key := template.uuid, template := template, position := index + 1 + offset } ::
      columnItems offset rest (index + 1)

/-- The memo `renderTemplates`, given `refinedSearchResults`; `none` is the
`null` returned when the three segments are empty. -/
def renderTemplates (refined : List Bucket) : Option (List ColumnItem) :=
  let recommendedTemplates := getTemplates refined .RECOMMENDED
  let partialTemplates := getTemplates refined .PARTIAL
  let genericTemplates := getTemplates refined .GENERIC
  if recommendedTemplates.length = 0 && partialTemplates.length = 0 &&
      genericTemplates.length = 0 then none
  else
    some (columnItems 0 recommendedTemplates 0 ++
      columnItems recommendedTemplates.length partialTemplates 0 ++
      columnItems (recommendedTemplates.length + partialTemplates.length)
        (filteredGenericTemplates refined) 0)

/-- The three segments of the rendered sequence: recommended, partial, and the
filtered generic designs. -/
def displaySegment (refined : List Bucket) : Nat → List Design
  | 0 => getTemplates refined .RECOMMENDED
  | 1 => getTemplates refined .PARTIAL
  | 2 => filteredGenericTemplates refined
  | _ => []

/-- The designs rendered for the store value `templateSearchResults`, in
rendering order. -/
def renderedDesigns (templateSearchResults : List Bucket) : List Design :=
  match renderTemplates (refinedSearchResults templateSearchResults) with
  | none => []
  | some items => items.map (fun item => item.template)

/-- The uuids listed by bucket `i` of a result set (none past its end). -/
def bucketUuids (buckets : List Bucket) (i : Nat) : List Nat :=
  match buckets.get? i with
  | none => []
  | some b => b.designs.map (fun d => d.uuid)

/-! ## Keyword normalisation -/

/-- The call `String.prototype.split( ',' )` on the characters of a string. -/
def splitComma : List Char → List (List Char)
  | [] => [[]]
  | c :: cs =>
    match splitComma cs with
    | [] => [[]]
    | piece :: pieces => if c = ',' then [] :: piece :: pieces else (c :: piece) :: pieces

/-- The characters removed by `String.prototype.trim`: the ECMAScript white
space and line terminator code points. -/
def isTrimmed (c : Char) : Bool :=
  let n := c.toNat
  n = 0x09 || n = 0x0A || n = 0x0B || n = 0x0C || n = 0x0D || n = 0x20 || n = 0xA0 ||
  n = 0x1680 || (0x2000 ≤ n && n ≤ 0x200A) || n = 0x2028 || n = 0x2029 || n = 0x202F ||
  n = 0x205F || n = 0x3000 || n = 0xFEFF

/-- The call `String.prototype.trim`. -/
def trim (cs : List Char) : List Char :=
  ((cs.dropWhile isTrimmed).reverse.dropWhile isTrimmed).reverse

/-- The call `String.prototype.toLowerCase`, on the ASCII letters (other
characters are left as they are). -/
def toLowerCase (cs : List Char) : List Char :=
  cs.map Char.toLower

/-- The array `[ ...new Set( items ) ]`: the first occurrence of each value,
in insertion order. -/
def uniqueInOrder : List String → List String
  | [] => []
  | x :: xs => x :: (uniqueInOrder xs).filter (fun y => y != x)

/-- The array `finalKeywords` of `fetchTemplates` (lines 214-220). -/
def finalKeywords (keyword : String) : List String :=
  uniqueInOrder ((splitComma keyword.data).map (fun item => String.mk (toLowerCase (trim item))))

/-- The step data read by `getInitialUserKeyword`. -/
structure StepsData where
  businessName : String
  businessType : String
  keywords : List String
deriving DecidableEq, Repr

/-- The function `getInitialUserKeyword()`. -/
def getInitialUserKeyword (stepsData : StepsData) : String :=
  let type := String.mk (toLowerCase stepsData.businessType.data)
  if type ≠ "others" then type
  else
    match stepsData.keywords with
    | first :: _ => first
    | [] => stepsData.businessName

/-! ## Component state and the two fetchers -/

/-- The reducer state `loadMoreTemplates`. -/
structure LoadMoreState where
  page : Nat
  loading : Bool
  showLoadMore : Bool
deriving DecidableEq, Repr

/-- A request handed to `apiFetch`. -/
inductive Request where
  /-- `POST zipwp/v1/templates` for a keyword, with the signal of a controller. -/
  | templates (keyword : String) (controller : Nat)
  /-- `POST zipwp/v1/all-templates` for a page, with `per_page`. -/
  | allTemplates (page : Nat) (per_page : Nat)
deriving DecidableEq, Repr

/-- The closure of one run of `fetchTemplates`: its local `results` and
`allTemplatesList`, the controllers of the keyword handlers still suspended at
`await apiFetch`, whether `Promise.all( promises )` has rejected, and the value
of `loadMoreTemplates.showLoadMore` it captured. -/
structure Generation where
  results : List Bucket
  allTemplatesList : List Design
  pending : List Nat
  rejected : Bool
  showLoadMore : Bool
deriving DecidableEq, Repr

/-- The closure of a run of `fetchAllTemplatesByPage` suspended at
`await apiFetch`. -/
structure PageFetch where
  page : Nat
  searchResults : List Bucket
  templateList : List Design
deriving DecidableEq, Repr

/-- The state of the component: the store fields `templateList` and
`templateSearchResults`, `isFetching`, `loadMoreTemplates`, the ref
`abortRequest.current`, the suspended runs of the two fetchers, and three
records kept for observation: the controllers on which `abort()` was called,
the requests issued, and the page arguments of the invocations of
`fetchAllTemplatesByPage`, with the number of `toast.error` calls. -/
structure State where
  templateList : List Design
  templateSearchResults : List Bucket
  isFetching : Bool
  loadMoreTemplates : LoadMoreState
  abortRequest : List Nat
  controllers : Nat
  generations : List Generation
  pageFetches : List PageFetch
  aborted : List Nat
  requests : List Request
  pageCalls : List Nat
  toasts : Nat
deriving DecidableEq, Repr

/-- The state at mount: the initial reducer state and empty store fields. -/
def State.initial : State :=
  { templateList := [], templateSearchResults := [], isFetching := false,
    loadMoreTemplates := { page := 1, loading := false, showLoadMore := false },
    abortRequest := [], controllers := 0, generations := [], pageFetches := [],
    aborted := [], requests := [], pageCalls := [], toasts := 0 }

/-- The second argument of `fetchAllTemplatesByPage`.  The function
destructures `searchResults`, `templateList` and `_showLoadMoreTemplates`; the
property `showLoadMoreTemplates` that `fetchTemplates` passes is not among
them. -/
structure PageOptions where
  searchResults : Option (List Bucket)
  templateList : Option (List Design)
  showLoadMoreTemplates : Option Bool
  _showLoadMoreTemplates : Option Bool
deriving DecidableEq, Repr

/-- The default `{}` of the second argument. -/
def PageOptions.empty : PageOptions :=
  { searchResults := none, templateList := none, showLoadMoreTemplates := none,
    _showLoadMoreTemplates := none }

/-- The statement `setLoadMoreTemplates( { loading } )`. -/
def setLoading (s : State) (loading : Bool) : State :=
  { s with loadMoreTemplates := { s.loadMoreTemplates with loading := loading } }

/-- The statement `setLoadMoreTemplates( { showLoadMore } )`. -/
def setShowLoadMore (s : State) (showLoadMore : Bool) : State :=
  { s with loadMoreTemplates := { s.loadMoreTemplates with showLoadMore := showLoadMore } }

/-- The call `fetchAllTemplatesByPage( page, options )` up to its
`await apiFetch` (lines 310-334).  `_showLoadMoreTemplates` defaults to the
object `loadMoreTemplates`, which is truthy.  The `return` of the guard sits
inside `try`, so the `finally` block runs after it. -/
def fetchAllTemplatesByPage (s : State) (page : Nat) (options : PageOptions) : State :=
  let s0 := { s with pageCalls := s.pageCalls ++ [page] }
  let searchResults := options.searchResults.getD s.templateSearchResults
  let templateList := options.templateList.getD s.templateList
  let _showLoadMoreTemplates : Bool :=
    match options._showLoadMoreTemplates with
    | none => true
    | some b => b
  if s0.loadMoreTemplates.loading || !_showLoadMoreTemplates then
    setLoading s0 false
  else
    let s1 := setLoading s0 true
    { s1 with
      requests := s1.requests ++ [Request.allTemplates page 9],
      pageFetches := s1.pageFetches ++
        [{ page := page, searchResults := searchResults, templateList := templateList }] }

/-- A fulfilled response of `zipwp/v1/all-templates`: `success`,
`data.data.result` (empty when missing) and `data.data.lastPage` (`0` when
missing). -/
structure PageResponse where
  success : Bool
  result : List Bucket
  lastPage : Nat
deriving DecidableEq, Repr

/-- The `catch` and `finally` blocks of `fetchAllTemplatesByPage` (lines
385-393). -/
def pageFailed (s : State) : State :=
  setLoading { s with toasts := s.toasts + 1 } false

/-- The continuation of `fetchAllTemplatesByPage` when `apiFetch` fulfils
(lines 336-393). -/
def pageResolved (vars : Option AiBuilderVars) (s : State) (fetch : PageFetch)
    (response : PageResponse) : State :=
  if !response.success then pageFailed s
  else
    let lastPage := if response.lastPage = 0 then 1 else response.lastPage
    match handleHiddenTemplates vars response.result with
    | .threw _ => pageFailed s
    | .returned result =>
      let updatedAllTemplates := pageFlatMerge fetch.templateList result
      let updatedSearchResults := pageBucketMerge fetch.searchResults result
      let s1 := { s with templateList := updatedAllTemplates,
                         templateSearchResults := updatedSearchResults }
      let s2 := if fetch.page = lastPage then setShowLoadMore s1 false else s1
      setLoading s2 false

/-- The `onClick` of the "Load More Designs" button (lines 602-610); the
button is rendered only while `loadMoreTemplates.showLoadMore` holds. -/
def loadMoreClick (s : State) : State :=
  if !s.loadMoreTemplates.showLoadMore then s
  else if s.loadMoreTemplates.loading then s
  else
    let s1 := fetchAllTemplatesByPage s s.loadMoreTemplates.page PageOptions.empty
    { s1 with loadMoreTemplates := { s1.loadMoreTemplates with page := s.loadMoreTemplates.page + 1 } }

/-- The call `fetchTemplates( keyword )` up to `await Promise.all( promises )`
(lines 199-293): the guard, the abort of the controllers in
`abortRequest.current`, the clearing of the flat list, and one request per
final keyword, each with a new controller. -/
def fetchTemplates (stepsData : StepsData) (s : State) (keyword : Option String) : State :=
  let keyword := keyword.getD (getInitialUserKeyword stepsData)
  if keyword = "" then s
  else
    let s1 := { s with isFetching := true }
    let s2 :=
      if s1.abortRequest.length ≠ 0 then
        { s1 with aborted := s1.aborted ++ s1.abortRequest, abortRequest := [] }
      else s1
    let s3 := { s2 with templateList := [] }
    let keywords := finalKeywords keyword
    let controllers := (List.range keywords.length).map (fun i => s3.controllers + i)
    { s3 with
      abortRequest := s3.abortRequest ++ controllers,
      controllers := s3.controllers + keywords.length,
      requests := s3.requests ++ List.zipWith Request.templates keywords controllers,
      generations := s3.generations ++
        [{ results := [], allTemplatesList := [], pending := controllers, rejected := false,
           showLoadMore := s.loadMoreTemplates.showLoadMore }] }

/-- The index of the run of `fetchTemplates` that owns a pending controller. -/
def findGeneration (controller : Nat) : List Generation → Option Nat
  | [] => none
  | g :: rest =>
    if g.pending.contains controller then some 0
    else (findGeneration controller rest).map (· + 1)

/-- A keyword handler of generation `g` rejects with `error`.  The first
rejection rejects `Promise.all( promises )` and runs the `catch` block (lines
302-307); later ones are ignored. -/
def keywordRejected (s : State) (g : Nat) (gen : Generation) (controller : Nat)
    (error : JSError) : State :=
  let gen1 := { gen with pending := gen.pending.erase controller, rejected := true }
  let s1 := { s with generations := s.generations.set g gen1 }
  if gen.rejected then s1
  else if error = JSError.AbortError then s1
  else { s1 with isFetching := false }

/-- The continuation of a keyword handler of generation `g` when its
`apiFetch` fulfils with `response?.data?.data || []` (lines 238-290), followed,
when it was the last handler and none has rejected, by the code after
`await Promise.all( promises )` (lines 295-301). -/
def keywordResolved (vars : Option AiBuilderVars) (s : State) (g : Nat) (gen : Generation)
    (controller : Nat) (response : List Bucket) : State :=
  match handleHiddenTemplates vars response with
  | .threw e => keywordRejected s g gen controller e
  | .returned result =>
    let merged := keywordBucketMerge gen.results result
    if merged.2 then
      keywordRejected s g { gen with results := merged.1 } controller JSError.TypeError
    else
      let results := merged.1
      let allTemplatesList := keywordFlatMerge gen.allTemplatesList result
      let gen1 := { gen with results := results, allTemplatesList := allTemplatesList,
                             pending := gen.pending.erase controller }
      let s1 := { s with templateList := allTemplatesList, templateSearchResults := results,
                         isFetching := false, generations := s.generations.set g gen1 }
      let s2 := setShowLoadMore s1 (allTemplatesList.length ≠ 0)
      if gen1.pending.length = 0 && !gen1.rejected then
        if allTemplatesList.length < 4 then
          fetchAllTemplatesByPage s2 1
            { searchResults := some results, templateList := some allTemplatesList,
              showLoadMoreTemplates := some gen.showLoadMore, _showLoadMoreTemplates := none }
        else s2
      else s2

/-- The events that drive the component. -/
inductive Event where
  /-- A call `fetchTemplates( keyword )`: the start of a generation. -/
  | search (keyword : Option String)
  /-- The `apiFetch` of the keyword call with this controller fulfils. -/
  | resolve (controller : Nat) (response : List Bucket)
  /-- The `apiFetch` of the keyword call with this controller rejects. -/
  | reject (controller : Nat) (error : JSError)
  /-- A click on "Load More Designs". -/
  | loadMore
  /-- The outstanding `apiFetch` of a page at position `i` fulfils. -/
  | pageResolve (i : Nat) (response : PageResponse)
  /-- The outstanding `apiFetch` of a page at position `i` rejects. -/
  | pageReject (i : Nat)
deriving DecidableEq, Repr

/-- The reaction of the component to one event.  An event for a controller
that no run is waiting on, or a page event for a position without an
outstanding page fetch, changes nothing. -/
def step (stepsData : StepsData) (vars : Option AiBuilderVars) (s : State) : Event → State
  | .search keyword => fetchTemplates stepsData s keyword
  | .resolve controller response =>
    match findGeneration controller s.generations with
    | none => s
    | some g =>
      match s.generations.get? g with
      | none => s
      | some gen => keywordResolved vars s g gen controller response
  | .reject controller error =>
    match findGeneration controller s.generations with
    | none => s
    | some g =>
      match s.generations.get? g with
      | none => s
      | some gen => keywordRejected s g gen controller error
  | .loadMore => loadMoreClick s
  | .pageResolve i response =>
    match s.pageFetches.get? i with
    | none => s
    | some fetch =>
      pageResolved vars { s with pageFetches := s.pageFetches.eraseIdx i } fetch response
  | .pageReject i =>
    match s.pageFetches.get? i with
    | none => s
    | some _ => pageFailed { s with pageFetches := s.pageFetches.eraseIdx i }

/-- The state after a sequence of events. -/
def run (stepsData : StepsData) (vars : Option AiBuilderVars) (s : State) (events : List Event) :
    State :=
  events.foldl (step stepsData vars) s

/-! ## Auxiliary definitions for the proofs and sample values -/

/-- The bucket `r` after it received the designs of `item` it did not hold. -/
def mergeInto (r item : Bucket) : Bucket :=
  { r with designs := r.designs ++ newDesignsByFind r.designs item.designs }

/-- The keyword merge loop as a recursion on both lists: bucket by bucket at
equal positions; the flag is set when an incoming bucket with designs has no
existing bucket at its position. -/
def keywordZipMerge : List Bucket → List Bucket → List Bucket × Bool
  | rs, [] => (rs, false)
  | [], item :: rest =>
    if item.designs.length > 0 then ([], true) else keywordZipMerge [] rest
  | r :: rs, item :: rest =>
    ((if item.designs.length > 0 then mergeInto r item else r) :: (keywordZipMerge rs rest).1,
      (keywordZipMerge rs rest).2)

/-- The page merge of one named bucket as a recursion on the existing list:
the first bucket with the name of `item` receives the designs it does not
hold; without such a bucket the list is unchanged. -/
def mergeFirst (item : Bucket) : List Bucket → List Bucket
  | [] => []
  | b :: rest =>
    if b.matchName = item.matchName then
      { b with designs := b.designs ++
          item.designs.filter (fun d => !(b.designs.map (fun e => e.uuid)).contains d.uuid) } :: rest
    else b :: mergeFirst item rest

/-- The first existing bucket with the name of `item`, if any, already holds
every uuid of `item`. -/
def Covered (item : Bucket) : List Bucket → Prop
  | [] => True
  | b :: rest =>
    if b.matchName = item.matchName then
      ∀ d ∈ item.designs, d.uuid ∈ b.designs.map (fun e => e.uuid)
    else Covered item rest

/-- The incoming buckets that the page merge takes up: those with a category
name that some existing bucket bears. -/
def matchedIncoming (existing incoming : List Bucket) : List Bucket :=
  incoming.filter (fun item =>
    item.matchName != "" && (existing.map (fun b => b.matchName)).contains item.matchName)

/-- The designs of `result` that reach the e-commerce test of
`handleHiddenTemplates`: all of them, or the non-premium ones when premium
designs are hidden. -/
def reachEcommerceTest (vars : Option AiBuilderVars) (result : List Bucket) : List Design :=
  (result.flatMap (fun b => b.designs)).filter (fun d =>
    !(hidePremiumTemplates vars && d.is_premium))

/-- The e-commerce pass can read `features.ecommerce` of every design it
tests: e-commerce is not hidden, or each design reaching the test has a
`features` object. -/
def featuresReadable (vars : Option AiBuilderVars) (result : List Bucket) : Bool :=
  !hideEcommerceTemplates vars ||
    (reachEcommerceTest vars result).all (fun d => d.features.isSome)

/-- Whether a list of designs holds the uuid `u`. -/
def hasUuid (ds : List Design) (u : Nat) : Bool :=
  (ds.map (fun d => d.uuid)).contains u

/-- The designs of bucket `i` that no bucket of higher priority lists. -/
def firstListed (buckets : List Bucket) (i : Nat) : List Design :=
  (designsAt buckets i).filter (fun d =>
    (List.range i).all (fun j => !hasUuid (designsAt buckets j) d.uuid))

/-- Step data of a sample site. -/
def sampleStepsData : StepsData :=
  { businessName := "Corner Shop", businessType := "others", keywords := [] }

/-- A sample design with the given uuid, not premium, without the e-commerce
flag. -/
def sampleDesign (uuid : Nat) : Design :=
  { uuid := uuid, is_premium := false, features := some { ecommerce := none } }

/-- The state while the page fetch of a top-up is outstanding: a search for
`cafe` returned one design and the top-up requested page 1. -/
def loadingState : State :=
  run sampleStepsData none State.initial
    [.search (some "cafe"), .resolve 0 [⟨"recommended", [sampleDesign 1]⟩]]

/-- The state once that page was fetched and reported as the last one: the
catalog answered page 1 with `lastPage = 1`. -/
def exhaustedState : State :=
  run sampleStepsData none loadingState
    [.pageResolve 0 ⟨true, [⟨"recommended", [sampleDesign 2]⟩], 1⟩]

/-- The state after a search for `a` was superseded by a search for `b`, whose
call resolved with four designs; the call for `a` (controller 0) is still
unsettled. -/
def supersededState : State :=
  run sampleStepsData none State.initial
    [.search (some "a"), .search (some "b"),
     .resolve 1 [⟨"recommended", [sampleDesign 1, sampleDesign 2, sampleDesign 3, sampleDesign 4]⟩]]

/-! ## Lemmas on the keyword bucket merge -/

theorem find_isNone_iff (existing : List Design) (u : Nat) :
    (existing.find? (fun e => e.uuid == u)).isNone = !(existing.map (fun e => e.uuid)).contains u := by
  induction existing with
  | nil => rfl
  | cons e es ih =>
    by_cases h : e.uuid = u
    · simp [List.find?_cons, h]
    · have h' : ¬ u = e.uuid := fun h'' => h h''.symm
      have hb : (e.uuid == u) = false := by simpa using h
      have hb' : (u == e.uuid) = false := by simpa using h'
      rw [List.find?_cons, hb, List.map_cons, List.contains_cons, hb', Bool.false_or]
      exact ih

theorem newDesignsByFind_eq (existing incoming : List Design) :
    newDesignsByFind existing incoming =
      incoming.filter (fun d => !(existing.map (fun e => e.uuid)).contains d.uuid) := by
  unfold newDesignsByFind
  congr 1
  funext d
  exact find_isNone_iff existing d.uuid

theorem newDesignsByFind_absorbed (existing incoming : List Design) :
    newDesignsByFind (existing ++ newDesignsByFind existing incoming) incoming = [] := by
  rw [newDesignsByFind_eq, newDesignsByFind_eq, List.filter_eq_nil_iff]
  intro d hd
  simp only [List.map_append, List.contains_eq_any_beq, List.any_append, Bool.not_or,
    Bool.and_eq_true, Bool.not_eq_true', not_and, Bool.not_eq_false]
  intro h
  simp only [List.any_eq_true, List.mem_map, List.mem_filter]
  refine ⟨d.uuid, ⟨d, ⟨hd, ?_⟩, rfl⟩, by simp⟩
  simpa using h

theorem newDesignsByFind_self (ds : List Design) : newDesignsByFind ds ds = [] := by
  rw [newDesignsByFind_eq, List.filter_eq_nil_iff]
  intro d hd
  simp only [Bool.not_eq_true', Bool.not_eq_false, List.contains_eq_any_beq, List.any_eq_true]
  exact ⟨d.uuid, List.mem_map.2 ⟨d, hd, rfl⟩, by simp⟩

theorem mergeInto_mergeInto (r item : Bucket) : mergeInto (mergeInto r item) item = mergeInto r item := by
  simp [mergeInto, newDesignsByFind_absorbed]

theorem mergeInto_self (r : Bucket) : mergeInto r r = r := by
  simp [mergeInto, newDesignsByFind_self]

theorem mergeInto_of_nil (r item : Bucket) (h : ¬ item.designs.length > 0) : mergeInto r item = r := by
  have : item.designs = [] := by
    cases hd : item.designs with
    | nil => rfl
    | cons a t => simp [hd] at h
  simp [mergeInto, newDesignsByFind, this]

theorem keywordZipMerge_nil_fst (items : List Bucket) : (keywordZipMerge [] items).1 = [] := by
  induction items with
  | nil => rfl
  | cons item rest ih =>
    by_cases hpos : item.designs.length > 0
    · simp [keywordZipMerge, hpos]
    · simpa [keywordZipMerge, hpos] using ih

theorem keywordMergeLoop_past (items : List Bucket) :
    ∀ (results : List Bucket) (indx : Nat), results.length ≤ indx →
      keywordMergeLoop results items indx = (results, (keywordZipMerge [] items).2) := by
  induction items with
  | nil => intro results indx _; simp [keywordMergeLoop, keywordZipMerge]
  | cons item rest ih =>
    intro results indx hle
    have hget : results[indx]? = none := List.getElem?_eq_none hle
    by_cases hpos : item.designs.length > 0
    · simp [keywordMergeLoop, keywordMergeItem, hpos, hget, keywordZipMerge]
    · have := ih results (indx + 1) (Nat.le_succ_of_le hle)
      simpa [keywordMergeLoop, keywordMergeItem, hpos, keywordZipMerge] using this

theorem keywordMergeLoop_eq (items : List Bucket) :
    ∀ (pre rs : List Bucket),
      keywordMergeLoop (pre ++ rs) items pre.length =
        (pre ++ (keywordZipMerge rs items).1, (keywordZipMerge rs items).2) := by
  induction items with
  | nil => intro pre rs; simp [keywordMergeLoop, keywordZipMerge]
  | cons item rest ih =>
    intro pre rs
    cases rs with
    | nil =>
      rw [keywordMergeLoop_past (item :: rest) (pre ++ []) pre.length (by simp),
        keywordZipMerge_nil_fst]
    | cons r rs =>
      have hget : (pre ++ r :: rs).get? pre.length = some r := by
        rw [List.get?_eq_getElem?, List.getElem?_append_right (Nat.le_refl _)]
        simp
      have hset : ∀ x, (pre ++ r :: rs).set pre.length x = (pre ++ [x]) ++ rs := by
        intro x
        simp [List.set_append]
      by_cases hpos : item.designs.length > 0
      · simp only [keywordMergeLoop, keywordMergeItem, hpos, if_true, hget, hset, keywordZipMerge]
        have := ih (pre ++ [mergeInto r item]) rs
        simp only [List.length_append, List.length_singleton] at this
        simpa [mergeInto] using this
      · have := ih (pre ++ [r]) rs
        simp only [List.length_append, List.length_singleton] at this
        simpa [keywordMergeLoop, keywordMergeItem, hpos, keywordZipMerge] using this

theorem keywordMergeLoop_zero (rs items : List Bucket) :
    keywordMergeLoop rs items 0 = keywordZipMerge rs items := by
  simpa using keywordMergeLoop_eq items [] rs

theorem keywordZipMerge_length (items : List Bucket) :
    ∀ rs, (keywordZipMerge rs items).1.length = rs.length := by
  induction items with
  | nil => intro rs; simp [keywordZipMerge]
  | cons item rest ih =>
    intro rs
    cases rs with
    | nil =>
      by_cases hpos : item.designs.length > 0
      · simp [keywordZipMerge, hpos]
      · simpa [keywordZipMerge, hpos] using ih []
    | cons r rs => simp [keywordZipMerge, ih rs]

theorem keywordZipMerge_idem (items : List Bucket) :
    ∀ rs, keywordZipMerge (keywordZipMerge rs items).1 items = keywordZipMerge rs items := by
  induction items with
  | nil => intro rs; simp [keywordZipMerge]
  | cons item rest ih =>
    intro rs
    cases rs with
    | nil =>
      by_cases hpos : item.designs.length > 0
      · simp [keywordZipMerge, hpos]
      · have := ih []
        simp only [keywordZipMerge, hpos, if_false]
        have hl := keywordZipMerge_length rest []
        have hnil : (keywordZipMerge [] rest).1 = [] := List.length_eq_zero.1 (by simpa using hl)
        rw [hnil]
        simp [keywordZipMerge, hpos]
    | cons r rs =>
      by_cases hpos : item.designs.length > 0
      · simp [keywordZipMerge, hpos, ih rs, mergeInto_mergeInto]
      · simp [keywordZipMerge, hpos, ih rs]

theorem keywordZipMerge_self (rs : List Bucket) : keywordZipMerge rs rs = (rs, false) := by
  induction rs with
  | nil => simp [keywordZipMerge]
  | cons r rs ih => simp [keywordZipMerge, ih, mergeInto_self]

theorem keywordBucketMerge_idem (X Y : List Bucket) :
    keywordBucketMerge (keywordBucketMerge X Y).1 Y = keywordBucketMerge X Y := by
  unfold keywordBucketMerge
  by_cases hX : X.length = 0
  · simp only [hX, if_true]
    by_cases hY : Y.length = 0
    · simp [hY]
    · simp [hY, keywordMergeLoop_zero, keywordZipMerge_self]
  · simp only [hX, if_false, keywordMergeLoop_zero]
    have hl := keywordZipMerge_length Y X
    have : ¬ (keywordZipMerge X Y).1.length = 0 := by rw [hl]; exact hX
    simp [this, keywordMergeLoop_zero, keywordZipMerge_idem]

/-! ## Lemmas on the page bucket merge -/

theorem findIndex_get (name : String) (X : List Bucket) :
    ∀ i, findIndex name X = some i → ∃ b, X[i]? = some b ∧ b.matchName = name := by
  induction X with
  | nil => intro i h; simp [findIndex] at h
  | cons b rest ih =>
    intro i h
    by_cases hb : b.matchName = name
    · simp [findIndex, hb] at h
      subst h
      exact ⟨b, by simp, hb⟩
    · simp only [findIndex, hb, if_false, Option.map_eq_some'] at h
      obtain ⟨j, hj, rfl⟩ := h
      obtain ⟨b', hb', hn⟩ := ih j hj
      exact ⟨b', by simpa using hb', hn⟩

theorem pageMergeItem_eq (item : Bucket) (X : List Bucket) :
    pageMergeItem X item = if item.matchName = "" then X else mergeFirst item X := by
  by_cases hn : item.matchName = ""
  · simp [pageMergeItem, hn]
  · simp only [pageMergeItem, hn, if_false]
    induction X with
    | nil => simp [findIndex, mergeFirst]
    | cons b rest ih =>
      by_cases hb : b.matchName = item.matchName
      · simp [findIndex, mergeFirst, hb]
      · simp only [findIndex, hb, if_false, mergeFirst]
        cases hf : findIndex item.matchName rest with
        | none =>
          simp only [hf] at ih
          simp only [Option.map_none']
          rw [← ih]
        | some j =>
          simp only [hf] at ih
          simp only [Option.map_some', List.get?_cons_succ, List.set_cons_succ]
          cases hg : rest.get? j with
          | none =>
            simp only [hg] at ih
            rw [← ih]
          | some b' =>
            simp only [hg] at ih
            rw [← ih]

theorem mergeFirst_names (item : Bucket) (X : List Bucket) :
    (mergeFirst item X).map (fun b => b.matchName) = X.map (fun b => b.matchName) := by
  induction X with
  | nil => rfl
  | cons b rest ih =>
    by_cases hb : b.matchName = item.matchName
    · simp [mergeFirst, hb]
    · simp [mergeFirst, hb, ih]

theorem pageMergeItem_names (item : Bucket) (X : List Bucket) :
    (pageMergeItem X item).map (fun b => b.matchName) = X.map (fun b => b.matchName) := by
  rw [pageMergeItem_eq]
  split
  · rfl
  · exact mergeFirst_names item X

theorem covered_mergeFirst_self (item : Bucket) (X : List Bucket) :
    Covered item (mergeFirst item X) := by
  induction X with
  | nil => simp [mergeFirst, Covered]
  | cons b rest ih =>
    by_cases hb : b.matchName = item.matchName
    · simp only [mergeFirst, hb, if_true, Covered]
      intro d hd
      by_cases hin : d.uuid ∈ b.designs.map (fun e => e.uuid)
      · simp only [List.map_append, List.mem_append]
        exact Or.inl hin
      · simp only [List.map_append, List.mem_append]
        refine Or.inr (List.mem_map.2 ⟨d, ?_, rfl⟩)
        simp only [List.mem_filter, hd, true_and]
        simpa using hin
    · simpa [mergeFirst, hb, Covered] using ih

theorem covered_cons_pos (item b : Bucket) (rest : List Bucket)
    (hb : b.matchName = item.matchName) :
    Covered item (b :: rest) ↔ ∀ d ∈ item.designs, d.uuid ∈ b.designs.map (fun e => e.uuid) := by
  simp only [Covered, if_pos hb]

theorem covered_cons_neg (item b : Bucket) (rest : List Bucket)
    (hb : ¬ b.matchName = item.matchName) :
    Covered item (b :: rest) ↔ Covered item rest := by
  simp only [Covered, if_neg hb]

theorem covered_mergeFirst (item other : Bucket) (X : List Bucket) (h : Covered item X) :
    Covered item (mergeFirst other X) := by
  induction X with
  | nil => simp [mergeFirst, Covered]
  | cons b rest ih =>
    by_cases ho : b.matchName = other.matchName
    · rw [mergeFirst, if_pos ho]
      by_cases hb : b.matchName = item.matchName
      · rw [covered_cons_pos item b rest hb] at h
        simp only [Covered]
        rw [if_pos hb]
        intro d hd
        simp only [List.map_append, List.mem_append]
        exact Or.inl (h d hd)
      · rw [covered_cons_neg item b rest hb] at h
        simp only [Covered]
        rw [if_neg hb]
        exact h
    · rw [mergeFirst, if_neg ho]
      by_cases hb : b.matchName = item.matchName
      · rw [covered_cons_pos item b rest hb] at h
        rw [covered_cons_pos item b _ hb]
        exact h
      · rw [covered_cons_neg item b rest hb] at h
        rw [covered_cons_neg item b _ hb]
        exact ih h

theorem mergeFirst_of_covered (item : Bucket) (X : List Bucket) (h : Covered item X) :
    mergeFirst item X = X := by
  induction X with
  | nil => rfl
  | cons b rest ih =>
    by_cases hb : b.matchName = item.matchName
    · simp only [Covered, hb, if_true] at h
      simp only [mergeFirst, hb, if_true]
      have : item.designs.filter (fun d => !(b.designs.map (fun e => e.uuid)).contains d.uuid) = [] := by
        rw [List.filter_eq_nil_iff]
        intro d hd
        simpa using h d hd
      rw [this, ← hb]
      simp
    · simp only [Covered, hb, if_false] at h
      simp [mergeFirst, hb, ih h]

/-- Being absorbed: a further page merge of `item` changes nothing. -/
theorem pageMergeItem_of_covered (item : Bucket) (X : List Bucket) (h : Covered item X) :
    pageMergeItem X item = X := by
  rw [pageMergeItem_eq]
  split
  · rfl
  · exact mergeFirst_of_covered item X h

theorem covered_pageMergeItem_self (item : Bucket) (X : List Bucket)
    (hn : item.matchName ≠ "") : Covered item (pageMergeItem X item) := by
  rw [pageMergeItem_eq, if_neg hn]
  exact covered_mergeFirst_self item X

theorem covered_pageMergeItem (item other : Bucket) (X : List Bucket) (h : Covered item X) :
    Covered item (pageMergeItem X other) := by
  rw [pageMergeItem_eq]
  split
  · exact h
  · exact covered_mergeFirst item other X h

theorem covered_pageBucketMerge (item : Bucket) (Y : List Bucket) :
    ∀ X, Covered item X → Covered item (pageBucketMerge X Y) := by
  induction Y with
  | nil => intro X h; exact h
  | cons y rest ih =>
    intro X h
    exact ih _ (covered_pageMergeItem item y X h)

theorem pageBucketMerge_covers (Y : List Bucket) :
    ∀ X, ∀ item ∈ Y, item.matchName ≠ "" → Covered item (pageBucketMerge X Y) := by
  induction Y with
  | nil => intro X item h; simp at h
  | cons y rest ih =>
    intro X item hmem hn
    rcases List.mem_cons.1 hmem with rfl | hrest
    · exact covered_pageBucketMerge item rest _ (covered_pageMergeItem_self item X hn)
    · exact ih _ item hrest hn

theorem pageBucketMerge_fixed (Y : List Bucket) :
    ∀ X, (∀ item ∈ Y, item.matchName ≠ "" → Covered item X) → pageBucketMerge X Y = X := by
  induction Y with
  | nil => intro X _; rfl
  | cons y rest ih =>
    intro X h
    have hy : pageMergeItem X y = X := by
      by_cases hn : y.matchName = ""
      · simp [pageMergeItem, hn]
      · exact pageMergeItem_of_covered y X (h y (List.mem_cons_self _ _) hn)
    show pageBucketMerge (pageMergeItem X y) rest = X
    rw [hy]
    exact ih X (fun item hi hn => h item (List.mem_cons_of_mem _ hi) hn)

theorem pageBucketMerge_idem (X Y : List Bucket) :
    pageBucketMerge (pageBucketMerge X Y) Y = pageBucketMerge X Y :=
  pageBucketMerge_fixed Y _ (fun item hi hn => pageBucketMerge_covers Y X item hi hn)

/-! ## The merges against their reference definitions -/

theorem filter_not_mem_eq (us : List Nat) (ds : List Design) :
    ds.filter (fun d => decide (d.uuid ∉ us)) = ds.filter (fun d => !us.contains d.uuid) := by
  apply List.filter_congr
  intro d _
  by_cases h : d.uuid ∈ us
  · simp [h]
  · simp [h]

theorem contains_names_iff (X : List Bucket) (n : String) :
    (X.map (fun b => b.matchName)).contains n = true ↔ n ∈ X.map (fun b => b.matchName) := by
  exact List.elem_iff

theorem mergeBucket_spec_of_mem (item : Bucket) (X : List Bucket)
    (h : item.matchName ∈ X.map (fun b => b.matchName)) :
    mergeBucket_spec X item = mergeFirst item X := by
  induction X with
  | nil => simp at h
  | cons b rest ih =>
    by_cases hb : b.matchName = item.matchName
    · simp only [mergeBucket_spec, mergeFirst, hb, if_true]
      rw [filter_not_mem_eq]
    · have hrest : item.matchName ∈ rest.map (fun b => b.matchName) := by
        rw [List.map_cons] at h
        rcases List.mem_cons.1 h with h1 | h2
        · exact absurd h1.symm hb
        · exact h2
      simp [mergeBucket_spec, mergeFirst, hb, ih hrest]

theorem pageBucketMerge_eq_spec (Y : List Bucket) :
    ∀ X, pageBucketMerge X Y = mergeBuckets_spec X (matchedIncoming X Y) := by
  induction Y with
  | nil => intro X; rfl
  | cons y rest ih =>
    intro X
    have hnames : matchedIncoming (pageMergeItem X y) rest = matchedIncoming X rest := by
      simp only [matchedIncoming, pageMergeItem_names]
    show pageBucketMerge (pageMergeItem X y) rest = _
    rw [ih, hnames]
    by_cases hn : y.matchName = ""
    · simp [matchedIncoming, List.filter_cons, hn, pageMergeItem]
    · by_cases hm : y.matchName ∈ X.map (fun b => b.matchName)
      · have hkeep : matchedIncoming X (y :: rest) = y :: matchedIncoming X rest := by
          have : (X.map (fun b => b.matchName)).contains y.matchName = true :=
            (contains_names_iff X y.matchName).2 hm
          have hn' : (y.matchName != "") = true := by simpa using hn
          simp only [matchedIncoming, List.filter_cons, this, hn', Bool.and_self, if_true]
        rw [hkeep]
        show _ = mergeBuckets_spec (mergeBucket_spec X y) (matchedIncoming X rest)
        rw [mergeBucket_spec_of_mem y X hm, pageMergeItem_eq, if_neg hn]
      · have hdrop : matchedIncoming X (y :: rest) = matchedIncoming X rest := by
          have : (X.map (fun b => b.matchName)).contains y.matchName = false := by
            rw [Bool.eq_false_iff]
            exact fun hc => hm ((contains_names_iff X y.matchName).1 hc)
          simp only [matchedIncoming, List.filter_cons, this, Bool.and_false]
          rfl
        have hfix : pageMergeItem X y = X := by
          rw [pageMergeItem_eq, if_neg hn]
          clear ih hnames hdrop
          induction X with
          | nil => rfl
          | cons b t iht =>
            have hb : ¬ b.matchName = y.matchName := by
              intro hb; exact hm (by simp [hb])
            have ht : y.matchName ∉ t.map (fun b => b.matchName) := by
              intro ht; exact hm (by simp at ht ⊢; exact Or.inr ht)
            simp [mergeFirst, hb, iht ht]
        rw [hdrop, hfix]

theorem keywordZipMerge_eq_spec (Y : List Bucket) :
    ∀ X, Y.length ≤ X.length → keywordZipMerge X Y = (mergeByPosition_spec X Y, false) := by
  induction Y with
  | nil => intro X _; cases X <;> simp [keywordZipMerge, mergeByPosition_spec]
  | cons y rest ih =>
    intro X hlen
    cases X with
    | nil => simp at hlen
    | cons b t =>
      have hlen' : rest.length ≤ t.length := by simpa using hlen
      have hfilter : newDesignsByFind b.designs y.designs =
          y.designs.filter (fun d => d.uuid ∉ b.designs.map (fun e => e.uuid)) := by
        rw [newDesignsByFind_eq, filter_not_mem_eq]
      by_cases hpos : y.designs.length > 0
      · simp [keywordZipMerge, mergeByPosition_spec, hpos, ih t hlen', mergeInto, hfilter]
      · have hnil : y.designs = [] := by
          cases hd : y.designs with
          | nil => rfl
          | cons a l => simp [hd] at hpos
        simp [keywordZipMerge, mergeByPosition_spec, hpos, ih t hlen', hnil]

theorem keywordBucketMerge_eq_spec (X Y : List Bucket) (hX : X ≠ [])
    (hlen : Y.length ≤ X.length) :
    keywordBucketMerge X Y = (mergeByPosition_spec X Y, false) := by
  have : ¬ X.length = 0 := by
    intro h; exact hX (List.length_eq_zero.1 h)
  simp only [keywordBucketMerge, this, if_false, keywordMergeLoop_zero]
  exact keywordZipMerge_eq_spec Y X hlen

/-! ## The flat merge of keyword results -/

theorem newDesignsByFind_nodup_append (acc ds : List Design)
    (hacc : (acc.map (fun d => d.uuid)).Nodup) (hds : (ds.map (fun d => d.uuid)).Nodup) :
    ((acc ++ newDesignsByFind acc ds).map (fun d => d.uuid)).Nodup := by
  rw [newDesignsByFind_eq, List.map_append, List.nodup_append]
  refine ⟨hacc, ?_, ?_⟩
  · exact hds.sublist (List.Sublist.map _ (List.filter_sublist _))
  · intro u hu hnew
    obtain ⟨d, hd, rfl⟩ := List.mem_map.1 hnew
    have := (List.mem_filter.1 hd).2
    simp only [Bool.not_eq_true', ← Bool.not_eq_true] at this
    exact this (List.elem_iff.2 hu)

/-- The flat fold of the keyword results alone keeps the uuids distinct, when
no bucket lists a uuid twice. -/
theorem keywordFlatMerge_nodup (result : List Bucket) :
    ∀ acc : List Design, (acc.map (fun d => d.uuid)).Nodup →
      (∀ b ∈ result, (b.designs.map (fun d => d.uuid)).Nodup) →
      ((keywordFlatMerge acc result).map (fun d => d.uuid)).Nodup := by
  induction result with
  | nil => intro acc hacc _; exact hacc
  | cons b rest ih =>
    intro acc hacc hb
    exact ih _ (newDesignsByFind_nodup_append acc b.designs hacc (hb b (List.mem_cons_self _ _)))
      (fun x hx => hb x (List.mem_cons_of_mem _ hx))

/-! ## The visibility filter against its reference definition -/

theorem filterEcommerce_returned (ds : List Design) (h : ∀ d ∈ ds, d.features.isSome = true) :
    filterEcommerce ds = .returned (ds.filter (fun d =>
      !ecommerceFlagSet d)) := by
  induction ds with
  | nil => rfl
  | cons d rest ih =>
    have hd := h d (List.mem_cons_self _ _)
    have hrest := ih (fun x hx => h x (List.mem_cons_of_mem _ hx))
    cases hf : d.features with
    | none => simp [hf] at hd
    | some f =>
      simp only [filterEcommerce, ecommerceTest, hf, hrest, List.filter_cons, ecommerceFlagSet]
      by_cases he : f.ecommerce = some "yes"
      · simp [he]
      · simp [he]

theorem filterEcommerce_threw (ds : List Design) (h : ∃ d ∈ ds, d.features.isSome = false) :
    filterEcommerce ds = .threw .TypeError := by
  induction ds with
  | nil => simp at h
  | cons d rest ih =>
    cases hf : d.features with
    | none => simp [filterEcommerce, ecommerceTest, hf]
    | some f =>
      have hrest : ∃ x ∈ rest, x.features.isSome = false := by
        obtain ⟨x, hx, hxf⟩ := h
        rcases List.mem_cons.1 hx with rfl | hx'
        · simp [hf] at hxf
        · exact ⟨x, hx', hxf⟩
      simp [filterEcommerce, ecommerceTest, hf, ih hrest]

theorem mapFilterEcommerce_returned (bs : List Bucket)
    (h : ∀ b ∈ bs, ∀ d ∈ b.designs, d.features.isSome = true) :
    mapFilterEcommerce bs = .returned (bs.map (fun b =>
      { b with designs := b.designs.filter (fun d =>
          !ecommerceFlagSet d) })) := by
  induction bs with
  | nil => rfl
  | cons b rest ih =>
    have hb := filterEcommerce_returned b.designs (h b (List.mem_cons_self _ _))
    have hrest := ih (fun x hx => h x (List.mem_cons_of_mem _ hx))
    simp [mapFilterEcommerce, hb, hrest]

theorem mapFilterEcommerce_threw (bs : List Bucket)
    (h : ∃ b ∈ bs, ∃ d ∈ b.designs, d.features.isSome = false) :
    mapFilterEcommerce bs = .threw .TypeError := by
  induction bs with
  | nil => simp at h
  | cons b rest ih =>
    by_cases hb : ∃ d ∈ b.designs, d.features.isSome = false
    · simp [mapFilterEcommerce, filterEcommerce_threw b.designs hb]
    · have hall : ∀ d ∈ b.designs, d.features.isSome = true := by
        intro d hd
        by_contra hc
        exact hb ⟨d, hd, by simpa using hc⟩
      have hrest : ∃ x ∈ rest, ∃ d ∈ x.designs, d.features.isSome = false := by
        obtain ⟨x, hx, d, hd, hdf⟩ := h
        rcases List.mem_cons.1 hx with rfl | hx'
        · exact absurd ⟨d, hd, hdf⟩ hb
        · exact ⟨x, hx', d, hd, hdf⟩
      simp [mapFilterEcommerce, filterEcommerce_returned b.designs hall, ih hrest]

theorem handleHiddenTemplates_returned (vars : Option AiBuilderVars) (result : List Bucket)
    (h : featuresReadable vars result = true) :
    handleHiddenTemplates vars result =
      .returned (visibilityFilter_spec (hidePremiumTemplates vars) (hideEcommerceTemplates vars)
        result) := by
  unfold handleHiddenTemplates visibilityFilter_spec
  cases he : hideEcommerceTemplates vars with
  | false =>
    cases hp : hidePremiumTemplates vars <;> simp
  | true =>
    have hall : ∀ b ∈ result, ∀ d ∈ b.designs,
        (hidePremiumTemplates vars && d.is_premium) = false → d.features.isSome = true := by
      intro b hb d hd hk
      simp only [featuresReadable, he, Bool.not_true, Bool.false_or, List.all_eq_true,
        reachEcommerceTest, List.mem_filter, List.mem_flatMap] at h
      exact h d ⟨⟨b, hb, hd⟩, by simp [hk]⟩
    cases hp : hidePremiumTemplates vars with
    | false =>
      simp only [Bool.false_eq_true, if_false, if_true]
      rw [mapFilterEcommerce_returned result (fun b hb d hd => hall b hb d hd (by simp [hp]))]
      simp only [Bool.false_and, Bool.not_false, Bool.true_and, Bool.and_true]
    | true =>
      simp only [if_true]
      rw [mapFilterEcommerce_returned]
      · simp only [List.map_map, Bool.true_and, Bool.and_true]
        congr 1
        apply List.map_congr_left
        intro a _
        simp only [Function.comp, List.filter_filter]
        congr 1
        apply List.filter_congr
        intro d _
        exact Bool.and_comm _ _
      · intro b hb d hd
        obtain ⟨b0, hb0, rfl⟩ := List.mem_map.1 hb
        simp only [List.mem_filter] at hd
        exact hall b0 hb0 d hd.1 (by simpa [hp] using hd.2)

theorem handleHiddenTemplates_threw (vars : Option AiBuilderVars) (result : List Bucket)
    (h : featuresReadable vars result = false) :
    handleHiddenTemplates vars result = .threw .TypeError := by
  simp only [featuresReadable, Bool.or_eq_false_iff, Bool.not_eq_false'] at h
  obtain ⟨he, hall⟩ := h
  have hex : ∃ d ∈ reachEcommerceTest vars result, d.features.isSome = false := by
    by_contra hc
    have : (reachEcommerceTest vars result).all (fun d => d.features.isSome) = true := by
      rw [List.all_eq_true]
      intro d hd
      by_contra hd'
      exact hc ⟨d, hd, by simpa using hd'⟩
    rw [this] at hall
    exact Bool.noConfusion hall
  obtain ⟨d, hd, hdf⟩ := hex
  simp only [reachEcommerceTest, List.mem_filter, List.mem_flatMap] at hd
  obtain ⟨⟨b, hb, hdb⟩, hk⟩ := hd
  unfold handleHiddenTemplates
  simp only [he, if_true]
  apply mapFilterEcommerce_threw
  cases hp : hidePremiumTemplates vars with
  | false =>
    simp only [Bool.false_eq_true, if_false]
    exact ⟨b, hb, d, hdb, hdf⟩
  | true =>
    simp only [if_true]
    refine ⟨_, List.mem_map.2 ⟨b, hb, rfl⟩, d, ?_, hdf⟩
    simp only [List.mem_filter]
    exact ⟨hdb, by simpa [hp] using hk⟩

/-! ## The composition for display -/

theorem hasUuid_iff (ds : List Design) (u : Nat) :
    hasUuid ds u = true ↔ u ∈ ds.map (fun d => d.uuid) := List.elem_iff

theorem hasUuid_append (xs ys : List Design) (u : Nat) :
    hasUuid (xs ++ ys) u = (hasUuid xs u || hasUuid ys u) := by
  simp [hasUuid, List.contains_eq_any_beq]

theorem hasUuid_self (ds : List Design) (d : Design) (h : d ∈ ds) : hasUuid ds d.uuid = true :=
  (hasUuid_iff ds d.uuid).2 (List.mem_map.2 ⟨d, h, rfl⟩)

theorem hasUuid_filter (ds : List Design) (p : Design → Bool) (u : Nat)
    (h : ∀ d ∈ ds, d.uuid = u → p d = false) : hasUuid (ds.filter p) u = false := by
  rw [Bool.eq_false_iff]
  intro hc
  obtain ⟨d, hd, hu⟩ := List.mem_map.1 ((hasUuid_iff _ u).1 hc)
  rw [List.mem_filter] at hd
  have := h d hd.1 hu
  rw [this] at hd
  exact Bool.noConfusion hd.2

theorem hasUuid_filter_le (ds : List Design) (p : Design → Bool) (u : Nat)
    (h : hasUuid ds u = false) : hasUuid (ds.filter p) u = false := by
  rw [Bool.eq_false_iff] at h ⊢
  intro hc
  obtain ⟨d, hd, hu⟩ := List.mem_map.1 ((hasUuid_iff _ u).1 hc)
  exact h ((hasUuid_iff _ u).2 (List.mem_map.2 ⟨d, (List.mem_filter.1 hd).1, hu⟩))

theorem refineStep_eq (acc : List Bucket) (index : Nat) :
    refineStep acc index =
      match acc.get? index with
      | none => acc
      | some item =>
        acc.set index { item with designs := item.designs.filter (fun d =>
          !hasUuid ((acc.filter (fun x => item.matchName != x.matchName)).flatMap
            (fun o => o.designs)) d.uuid) } := by
  unfold refineStep
  cases hg : acc.get? index with
  | none => rfl
  | some item =>
    simp only
    have hfilter : ∀ others : List Design,
        item.designs.filter (fun designItem =>
          (others.find? (fun otherDesign => otherDesign.uuid == designItem.uuid)).isNone) =
        item.designs.filter (fun d => !hasUuid others d.uuid) := by
      intro others
      apply List.filter_congr
      intro d _
      exact find_isNone_iff others d.uuid
    rw [hfilter]
    by_cases hlen : item.designs.length = 0
    · have hnil : item.designs = [] := List.length_eq_zero.1 hlen
      rw [if_pos hlen, hnil]
      rw [List.filter_nil]
      rw [List.get?_eq_getElem?] at hg
      have : acc.set index item = acc := by
        apply List.ext_getElem?
        intro j
        rw [List.getElem?_set]
        by_cases hj : index = j
        · subst hj
          have hlt : index < acc.length := by
            by_contra hc
            rw [List.getElem?_eq_none (Nat.le_of_not_lt hc)] at hg
            exact Option.noConfusion hg
          simp [hlt, hg]
        · simp [hj]
      have hitem' : ({ matchName := item.matchName, designs := [] } : Bucket) = item := by
        cases item
        simp at hnil
        simp [hnil]
      rw [hitem', this]
    · rw [if_neg hlen]

theorem refined_three (a b c : Bucket) (hab : a.matchName ≠ b.matchName)
    (hac : a.matchName ≠ c.matchName) (hbc : b.matchName ≠ c.matchName) :
    refinedSearchResults [a, b, c] =
      [{ a with designs := a.designs.filter (fun d =>
          !hasUuid (b.designs.filter (fun d =>
              !hasUuid (a.designs ++ c.designs.filter (fun d =>
                !hasUuid (a.designs ++ b.designs) d.uuid)) d.uuid) ++
            c.designs.filter (fun d => !hasUuid (a.designs ++ b.designs) d.uuid)) d.uuid) },
       { b with designs := b.designs.filter (fun d =>
          !hasUuid (a.designs ++ c.designs.filter (fun d =>
            !hasUuid (a.designs ++ b.designs) d.uuid)) d.uuid) },
       { c with designs := c.designs.filter (fun d => !hasUuid (a.designs ++ b.designs) d.uuid) }] := by
  have hr : List.range 3 = [0, 1, 2] := by decide
  have hba := hab.symm
  have hca := hac.symm
  have hcb := hbc.symm
  simp [refinedSearchResults, hr, refineStep_eq, List.filter_cons, hab, hac, hbc, hba, hca, hcb]

theorem refined_two (a b : Bucket) (hab : a.matchName ≠ b.matchName) :
    refinedSearchResults [a, b] =
      [{ a with designs := a.designs.filter (fun d =>
          !hasUuid (b.designs.filter (fun d => !hasUuid a.designs d.uuid)) d.uuid) },
       { b with designs := b.designs.filter (fun d => !hasUuid a.designs d.uuid) }] := by
  have hr : List.range 2 = [0, 1] := by decide
  have hba := hab.symm
  simp [refinedSearchResults, hr, refineStep_eq, List.filter_cons, hab, hba]

theorem refined_one (a : Bucket) : refinedSearchResults [a] = [a] := by
  have hr : List.range 1 = [0] := by decide
  simp [refinedSearchResults, hr, refineStep_eq, List.filter_cons, hasUuid]

theorem filter_eq_self_of (ds : List Design) (p : Design → Bool) (h : ∀ d ∈ ds, p d = true) :
    ds.filter p = ds := List.filter_eq_self.2 h

/-- The segments rendered for three buckets with distinct names. -/
theorem segments_three (a b c : Bucket) (hab : a.matchName ≠ b.matchName)
    (hac : a.matchName ≠ c.matchName) (hbc : b.matchName ≠ c.matchName) :
    refinedSearchResults [a, b, c] =
      [a, { b with designs := b.designs.filter (fun d => !hasUuid a.designs d.uuid) },
       { c with designs := c.designs.filter (fun d => !hasUuid (a.designs ++ b.designs) d.uuid) }] := by
  rw [refined_three a b c hab hac hbc]
  have hC : ∀ d : Design, hasUuid (a.designs ++ b.designs) d.uuid = true →
      hasUuid (c.designs.filter (fun d => !hasUuid (a.designs ++ b.designs) d.uuid)) d.uuid
        = false := by
    intro d hd
    apply hasUuid_filter
    intro x _ hx
    rw [hx, hd]
    rfl
  have hB : b.designs.filter (fun d =>
      !hasUuid (a.designs ++ c.designs.filter (fun d =>
        !hasUuid (a.designs ++ b.designs) d.uuid)) d.uuid) =
      b.designs.filter (fun d => !hasUuid a.designs d.uuid) := by
    apply List.filter_congr
    intro d hd
    have : hasUuid (a.designs ++ b.designs) d.uuid = true := by
      rw [hasUuid_append, hasUuid_self b.designs d hd, Bool.or_true]
    rw [hasUuid_append, hC d this, Bool.or_false]
  rw [hB]
  have hA : a.designs.filter (fun d =>
      !hasUuid (b.designs.filter (fun d => !hasUuid a.designs d.uuid) ++
        c.designs.filter (fun d => !hasUuid (a.designs ++ b.designs) d.uuid)) d.uuid) =
      a.designs := by
    apply filter_eq_self_of
    intro d hd
    have h1 : hasUuid (a.designs ++ b.designs) d.uuid = true := by
      rw [hasUuid_append, hasUuid_self a.designs d hd, Bool.true_or]
    have h2 : hasUuid (b.designs.filter (fun d => !hasUuid a.designs d.uuid)) d.uuid = false := by
      apply hasUuid_filter
      intro x _ hx
      rw [hx, hasUuid_self a.designs d hd]
      rfl
    rw [hasUuid_append, hC d h1, h2]
    rfl
  rw [hA]

/-- The segments rendered for two buckets with distinct names. -/
theorem segments_two (a b : Bucket) (hab : a.matchName ≠ b.matchName) :
    refinedSearchResults [a, b] =
      [a, { b with designs := b.designs.filter (fun d => !hasUuid a.designs d.uuid) }] := by
  rw [refined_two a b hab]
  have hA : a.designs.filter (fun d =>
      !hasUuid (b.designs.filter (fun d => !hasUuid a.designs d.uuid)) d.uuid) = a.designs := by
    apply filter_eq_self_of
    intro d hd
    have h2 : hasUuid (b.designs.filter (fun d => !hasUuid a.designs d.uuid)) d.uuid = false := by
      apply hasUuid_filter
      intro x _ hx
      rw [hx, hasUuid_self a.designs d hd]
      rfl
    rw [h2]
    rfl
  rw [hA]

theorem displaySegment_eq (tsr : List Bucket) (hlen : tsr.length ≤ 3)
    (hnames : (tsr.map (fun b => b.matchName)).Nodup) (i : Nat) :
    displaySegment (refinedSearchResults tsr) i = firstListed tsr i := by
  have hr1 : List.range 1 = [0] := by decide
  have hr2 : List.range 2 = [0, 1] := by decide
  match tsr, hlen, hnames with
  | [], _, _ =>
    match i with
    | 0 => simp [refinedSearchResults, displaySegment, getTemplates, designsAt, firstListed]
    | 1 => simp [refinedSearchResults, displaySegment, getTemplates, designsAt, firstListed]
    | 2 =>
      simp [refinedSearchResults, displaySegment, getTemplates, designsAt, firstListed,
        filteredGenericTemplates]
    | (n + 3) => simp [displaySegment, designsAt, firstListed]
  | [a], _, _ =>
    rw [refined_one]
    match i with
    | 0 => simp [displaySegment, getTemplates, designsAt, firstListed]
    | 1 => simp [displaySegment, getTemplates, designsAt, firstListed]
    | 2 => simp [displaySegment, getTemplates, designsAt, firstListed, filteredGenericTemplates]
    | (n + 3) => simp [displaySegment, designsAt, firstListed]
  | [a, b], _, hn =>
    have hab : a.matchName ≠ b.matchName := by
      simp at hn
      exact hn
    rw [segments_two a b hab]
    match i with
    | 0 => simp [displaySegment, getTemplates, designsAt, firstListed]
    | 1 => simp [displaySegment, getTemplates, designsAt, firstListed, hr1]
    | 2 => simp [displaySegment, getTemplates, designsAt, firstListed, filteredGenericTemplates]
    | (n + 3) => simp [displaySegment, designsAt, firstListed]
  | [a, b, c], _, hn =>
    have hab : a.matchName ≠ b.matchName := by
      simp at hn
      exact hn.1.1
    have hac : a.matchName ≠ c.matchName := by
      simp at hn
      exact hn.1.2
    have hbc : b.matchName ≠ c.matchName := by
      simp at hn
      exact hn.2
    rw [segments_three a b c hab hac hbc]
    match i with
    | 0 => simp [displaySegment, getTemplates, designsAt, firstListed]
    | 1 => simp [displaySegment, getTemplates, designsAt, firstListed, hr1]
    | 2 =>
      simp only [displaySegment, getTemplates, designsAt, firstListed, filteredGenericTemplates,
        hr2, List.get?_cons_succ, List.get?_cons_zero, List.filter_filter, List.all_cons,
        List.all_nil, Bool.and_true]
      apply List.filter_congr
      intro d hd
      have hA : (List.map (fun d => d.uuid) a.designs).contains d.uuid = hasUuid a.designs d.uuid :=
        rfl
      rw [hA, hasUuid_append]
      cases h1 : hasUuid a.designs d.uuid with
      | true => simp
      | false =>
        cases h2 : hasUuid b.designs d.uuid with
        | true => simp
        | false =>
          have : hasUuid (b.designs.filter (fun d => !hasUuid a.designs d.uuid)) d.uuid = false :=
            hasUuid_filter_le _ _ _ h2
          have h3 : (List.map (fun d => d.uuid)
              (b.designs.filter (fun d => !hasUuid a.designs d.uuid))).contains d.uuid = false :=
            this
          rw [h3]
          rfl
    | (n + 3) => simp [displaySegment, designsAt, firstListed]
  | (_ :: _ :: _ :: _ :: _), h, _ => simp at h

theorem columnItems_template (offset : Nat) (ds : List Design) :
    ∀ index, (columnItems offset ds index).map (fun item => item.template) = ds := by
  induction ds with
  | nil => intro index; rfl
  | cons d rest ih => intro index; simp [columnItems, ih]

theorem renderedDesigns_eq (tsr : List Bucket) :
    renderedDesigns tsr =
      displaySegment (refinedSearchResults tsr) 0 ++ displaySegment (refinedSearchResults tsr) 1 ++
        displaySegment (refinedSearchResults tsr) 2 := by
  unfold renderedDesigns renderTemplates
  simp only [displaySegment]
  split_ifs with h
  · simp only [Bool.and_eq_true, decide_eq_true_eq] at h
    obtain ⟨⟨h0, h1⟩, h2⟩ := h
    simp [filteredGenericTemplates, List.length_eq_zero.1 h0, List.length_eq_zero.1 h1,
      List.length_eq_zero.1 h2]
  · simp [columnItems_template]

theorem bucketUuids_eq (tsr : List Bucket) (i : Nat) :
    bucketUuids tsr i = (designsAt tsr i).map (fun d => d.uuid) := by
  unfold bucketUuids designsAt
  cases tsr.get? i <;> rfl

theorem bucketUuids_nodup (tsr : List Bucket)
    (hnodup : ∀ b ∈ tsr, (b.designs.map (fun d => d.uuid)).Nodup) (i : Nat) :
    (bucketUuids tsr i).Nodup := by
  unfold bucketUuids
  cases h : tsr.get? i with
  | none => exact List.nodup_nil
  | some b => exact hnodup b (List.get?_mem h)

theorem bucketUuids_of_length_le (tsr : List Bucket) (i : Nat) (h : tsr.length ≤ i) :
    bucketUuids tsr i = [] := by
  unfold bucketUuids
  rw [List.get?_eq_getElem?, List.getElem?_eq_none h]

theorem mem_firstListed_uuids (tsr : List Bucket) (i u : Nat) :
    u ∈ (firstListed tsr i).map (fun d => d.uuid) ↔
      u ∈ bucketUuids tsr i ∧ ∀ j < i, u ∉ bucketUuids tsr j := by
  simp only [firstListed, List.mem_map, List.mem_filter, List.all_eq_true, List.mem_range,
    Bool.not_eq_true', bucketUuids_eq]
  constructor
  · rintro ⟨d, ⟨hd, hall⟩, rfl⟩
    refine ⟨⟨d, hd, rfl⟩, ?_⟩
    intro j hj hc
    have := hall j hj
    rw [Bool.eq_false_iff] at this
    exact this ((hasUuid_iff _ _).2 (List.mem_map.2 hc))
  · rintro ⟨⟨d, hd, rfl⟩, hall⟩
    refine ⟨d, ⟨hd, ?_⟩, rfl⟩
    intro j hj
    rw [Bool.eq_false_iff]
    intro hc
    exact hall j hj (List.mem_map.1 ((hasUuid_iff _ _).1 hc))

theorem firstListed_uuids_nodup (tsr : List Bucket)
    (hnodup : ∀ b ∈ tsr, (b.designs.map (fun d => d.uuid)).Nodup) (i : Nat) :
    ((firstListed tsr i).map (fun d => d.uuid)).Nodup := by
  have hsub : ((firstListed tsr i).map (fun d => d.uuid)).Sublist (bucketUuids tsr i) := by
    rw [bucketUuids_eq]
    exact List.Sublist.map _ (List.filter_sublist _)
  exact (bucketUuids_nodup tsr hnodup i).sublist hsub

theorem firstListed_disjoint (tsr : List Bucket) (i j u : Nat) (hij : i < j)
    (hi : u ∈ (firstListed tsr i).map (fun d => d.uuid))
    (hj : u ∈ (firstListed tsr j).map (fun d => d.uuid)) : False :=
  ((mem_firstListed_uuids tsr j u).1 hj).2 i hij ((mem_firstListed_uuids tsr i u).1 hi).1

theorem exists_first_bucket (tsr : List Bucket) (u : Nat) (h : ∃ i, u ∈ bucketUuids tsr i) :
    ∃ i, u ∈ bucketUuids tsr i ∧ ∀ j < i, u ∉ bucketUuids tsr j :=
  ⟨Nat.find h, Nat.find_spec h, fun _ hj => Nat.find_min h hj⟩

theorem rendered_count_one (tsr : List Bucket) (hlen : tsr.length ≤ 3)
    (hnames : (tsr.map (fun b => b.matchName)).Nodup)
    (hnodup : ∀ b ∈ tsr, (b.designs.map (fun d => d.uuid)).Nodup) (u : Nat)
    (h : ∃ i, u ∈ bucketUuids tsr i) :
    ((renderedDesigns tsr).map (fun d => d.uuid)).count u = 1 := by
  rw [renderedDesigns_eq, displaySegment_eq tsr hlen hnames, displaySegment_eq tsr hlen hnames,
    displaySegment_eq tsr hlen hnames]
  apply List.count_eq_one_of_mem
  · simp only [List.map_append]
    rw [List.nodup_append, List.nodup_append]
    refine ⟨⟨firstListed_uuids_nodup tsr hnodup 0, firstListed_uuids_nodup tsr hnodup 1, ?_⟩,
      firstListed_uuids_nodup tsr hnodup 2, ?_⟩
    · intro x h0 h1
      exact firstListed_disjoint tsr 0 1 x (by decide) h0 h1
    · intro x h01 h2
      rcases List.mem_append.1 h01 with h0 | h1
      · exact firstListed_disjoint tsr 0 2 x (by decide) h0 h2
      · exact firstListed_disjoint tsr 1 2 x (by decide) h1 h2
  · obtain ⟨i, hi, hmin⟩ := exists_first_bucket tsr u h
    have hmem := (mem_firstListed_uuids tsr i u).2 ⟨hi, hmin⟩
    have hi3 : i < 3 := by
      by_contra hc
      rw [bucketUuids_of_length_le tsr i (by omega)] at hi
      exact List.not_mem_nil _ hi
    simp only [List.map_append, List.mem_append]
    match i, hi3, hmem with
    | 0, _, hm => exact Or.inl (Or.inl hm)
    | 1, _, hm => exact Or.inl (Or.inr hm)
    | 2, _, hm => exact Or.inr hm

/-! ## Lemmas on the event steps -/

theorem fetchAllTemplatesByPage_pageCalls (s : State) (page : Nat) (options : PageOptions) :
    (fetchAllTemplatesByPage s page options).pageCalls = s.pageCalls ++ [page] := by
  unfold fetchAllTemplatesByPage
  simp only
  split <;> rfl

theorem keywordRejected_store (s : State) (g : Nat) (gen : Generation) (c : Nat)
    (e : JSError) :
    (keywordRejected s g gen c e).templateList = s.templateList ∧
    (keywordRejected s g gen c e).templateSearchResults = s.templateSearchResults := by
  unfold keywordRejected
  simp only
  split
  · exact ⟨rfl, rfl⟩
  · split <;> exact ⟨rfl, rfl⟩

theorem step_reject_eq (sd : StepsData) (vars : Option AiBuilderVars) (s : State) (c : Nat)
    (e : JSError) :
    step sd vars s (.reject c e) =
      match findGeneration c s.generations with
      | none => s
      | some g =>
        match s.generations.get? g with
        | none => s
        | some gen => keywordRejected s g gen c e := rfl

theorem step_resolve_eq (sd : StepsData) (vars : Option AiBuilderVars) (s : State) (c : Nat)
    (response : List Bucket) :
    step sd vars s (.resolve c response) =
      match findGeneration c s.generations with
      | none => s
      | some g =>
        match s.generations.get? g with
        | none => s
        | some gen => keywordResolved vars s g gen c response := rfl

theorem step_reject_store (sd : StepsData) (vars : Option AiBuilderVars) (s : State) (c : Nat)
    (e : JSError) :
    (step sd vars s (.reject c e)).templateList = s.templateList ∧
    (step sd vars s (.reject c e)).templateSearchResults = s.templateSearchResults := by
  rw [step_reject_eq]
  cases findGeneration c s.generations with
  | none => exact ⟨rfl, rfl⟩
  | some g =>
    dsimp only
    cases s.generations.get? g with
    | none => exact ⟨rfl, rfl⟩
    | some gen => exact keywordRejected_store s g gen c e

theorem step_resolve_store (sd : StepsData) (vars : Option AiBuilderVars) (s : State)
    (c g : Nat) (gen : Generation) (response result : List Bucket)
    (hfind : findGeneration c s.generations = some g)
    (hget : s.generations.get? g = some gen)
    (hfilter : handleHiddenTemplates vars response = .returned result)
    (hmerge : (keywordBucketMerge gen.results result).2 = false) :
    (step sd vars s (.resolve c response)).templateList =
        keywordFlatMerge gen.allTemplatesList result ∧
    (step sd vars s (.resolve c response)).templateSearchResults =
        (keywordBucketMerge gen.results result).1 := by
  rw [step_resolve_eq]
  simp only [hfind, hget, keywordResolved, hfilter, hmerge, Bool.false_eq_true, if_false]
  split
  · split
    · simp [fetchAllTemplatesByPage, setShowLoadMore, setLoading]
      split <;> simp
    · simp [setShowLoadMore]
  · simp [setShowLoadMore]

/-- A page fetch that succeeds and reports its own page as the last one ends
with `showLoadMore` and `loading` both false. -/
theorem pageResolved_last_page (vars : Option AiBuilderVars) (s : State) (fetch : PageFetch)
    (response : PageResponse) (result : List Bucket) (hsuccess : response.success = true)
    (hfilter : handleHiddenTemplates vars response.result = .returned result)
    (hlast : fetch.page = if response.lastPage = 0 then 1 else response.lastPage) :
    (pageResolved vars s fetch response).loadMoreTemplates.showLoadMore = false ∧
    (pageResolved vars s fetch response).loadMoreTemplates.loading = false ∧
    (pageResolved vars s fetch response).templateList = pageFlatMerge fetch.templateList result ∧
    (pageResolved vars s fetch response).templateSearchResults =
      pageBucketMerge fetch.searchResults result := by
  unfold pageResolved
  simp only [hsuccess, Bool.not_true, Bool.false_eq_true, if_false, hfilter]
  rw [if_pos hlast]
  exact ⟨rfl, rfl, rfl, rfl⟩

/-! ## Lemmas on keyword normalisation -/

theorem fetchTemplates_of_nonempty (sd : StepsData) (s : State) (keyword : String)
    (h : keyword ≠ "") :
    (fetchTemplates sd s (some keyword)).templateList = [] ∧
    (fetchTemplates sd s (some keyword)).templateSearchResults = s.templateSearchResults ∧
    (fetchTemplates sd s (some keyword)).requests =
      s.requests ++ List.zipWith Request.templates (finalKeywords keyword)
        ((List.range (finalKeywords keyword).length).map (fun i => s.controllers + i)) ∧
    (∀ c ∈ s.abortRequest, c ∈ (fetchTemplates sd s (some keyword)).aborted) := by
  unfold fetchTemplates
  simp only [Option.getD_some, h, if_false]
  by_cases hlen : s.abortRequest.length = 0
  · have hnil : s.abortRequest = [] := List.length_eq_zero.1 hlen
    simp [hlen, hnil]
  · simp only [ne_eq, hlen, not_false_eq_true, if_true, List.mem_append, true_and]
    exact fun c hc => Or.inr hc

/-! ## The claims -/

/-- C1, evaluated at the failing input.  A keyword result lists design 1; the
page fetched by the top-up lists design 1 again.  The page fold of
`fetchAllTemplatesByPage` concatenates without looking for the uuid, so the
flat aggregate then holds uuid 1 twice, both for the two folds applied one
after the other and in the state reached by the component. -/
theorem flat_aggregate_duplicate_after_page_fold :
    (pageFlatMerge (keywordFlatMerge [] [⟨"recommended", [sampleDesign 1]⟩])
        [⟨"recommended", [sampleDesign 1, sampleDesign 2]⟩]).map (fun d => d.uuid) = [1, 1, 2] ∧
    (run sampleStepsData none State.initial
      [.search (some "cafe"), .resolve 0 [⟨"recommended", [sampleDesign 1]⟩],
       .pageResolve 0 ⟨true, [⟨"recommended", [sampleDesign 1, sampleDesign 2]⟩], 2⟩]).templateList.map
        (fun d => d.uuid) = [1, 1, 2] := by
  decide

/-- C2.  For a result set of at most three buckets with pairwise distinct
names in which no bucket lists a uuid twice, the rendered sequence is the
recommended segment, then the partial one, then the filtered generic one;
every uuid of an input bucket occurs in it exactly once; a uuid lies in
segment `i` exactly when bucket `i` lists it and no bucket of lower index
does; and each segment is a subsequence of the designs of its own bucket. -/
theorem priority_composition (tsr : List Bucket) (hlen : tsr.length ≤ 3)
    (hnames : (tsr.map (fun b => b.matchName)).Nodup)
    (hnodup : ∀ b ∈ tsr, (b.designs.map (fun d => d.uuid)).Nodup) :
    renderedDesigns tsr =
      displaySegment (refinedSearchResults tsr) 0 ++ displaySegment (refinedSearchResults tsr) 1 ++
        displaySegment (refinedSearchResults tsr) 2 ∧
    (∀ u, (∃ b ∈ tsr, u ∈ b.designs.map (fun d => d.uuid)) →
      ((renderedDesigns tsr).map (fun d => d.uuid)).count u = 1) ∧
    (∀ u i, u ∈ (displaySegment (refinedSearchResults tsr) i).map (fun d => d.uuid) ↔
      u ∈ bucketUuids tsr i ∧ ∀ j < i, u ∉ bucketUuids tsr j) ∧
    (∀ i, (displaySegment (refinedSearchResults tsr) i).Sublist (designsAt tsr i)) := by
  refine ⟨renderedDesigns_eq tsr, ?_, ?_, ?_⟩
  · rintro u ⟨b, hb, hu⟩
    apply rendered_count_one tsr hlen hnames hnodup u
    obtain ⟨i, hi, hget⟩ := List.getElem_of_mem hb
    refine ⟨i, ?_⟩
    unfold bucketUuids
    rw [List.get?_eq_getElem?, List.getElem?_eq_getElem hi, hget]
    exact hu
  · intro u i
    rw [displaySegment_eq tsr hlen hnames]
    exact mem_firstListed_uuids tsr i u
  · intro i
    rw [displaySegment_eq tsr hlen hnames]
    exact List.filter_sublist _

/-- Witness of C2: design 1 is returned as recommended and as partial, design 2
as partial and as generic; the rendered sequence holds uuid 1 once. -/
theorem priority_composition_witness :
    ((renderedDesigns
        [⟨"recommended", [sampleDesign 1]⟩, ⟨"partial", [sampleDesign 1, sampleDesign 2]⟩,
         ⟨"generic", [sampleDesign 2, sampleDesign 3]⟩]).map (fun d => d.uuid)).count 1 = 1 :=
  (priority_composition
      [⟨"recommended", [sampleDesign 1]⟩, ⟨"partial", [sampleDesign 1, sampleDesign 2]⟩,
       ⟨"generic", [sampleDesign 2, sampleDesign 3]⟩]
      (by decide) (by decide) (by decide)).2.1 1
    ⟨⟨"recommended", [sampleDesign 1]⟩, by decide, by decide⟩

/-- Counterexample to C3.  With existing buckets `recommended` and `generic`
and an incoming result whose only bucket is `generic`, the keyword fold adds
the incoming design to the bucket at index 0, `recommended`, where the merge by
name adds it to `generic`; with an existing bucket `recommended` and an
incoming bucket `generic`, the page fold drops the incoming bucket, where the
merge by name appends it. -/
theorem bucket_merge_not_by_name :
    (keywordBucketMerge
        [⟨"recommended", [sampleDesign 1]⟩, ⟨"generic", [sampleDesign 2]⟩]
        [⟨"generic", [sampleDesign 3]⟩]).1 =
      [⟨"recommended", [sampleDesign 1, sampleDesign 3]⟩, ⟨"generic", [sampleDesign 2]⟩] ∧
    mergeBuckets_spec
        [⟨"recommended", [sampleDesign 1]⟩, ⟨"generic", [sampleDesign 2]⟩]
        [⟨"generic", [sampleDesign 3]⟩] =
      [⟨"recommended", [sampleDesign 1]⟩, ⟨"generic", [sampleDesign 2, sampleDesign 3]⟩] ∧
    pageBucketMerge [⟨"recommended", [sampleDesign 1]⟩] [⟨"generic", [sampleDesign 3]⟩] =
      [⟨"recommended", [sampleDesign 1]⟩] ∧
    mergeBuckets_spec [⟨"recommended", [sampleDesign 1]⟩] [⟨"generic", [sampleDesign 3]⟩] =
      [⟨"recommended", [sampleDesign 1]⟩, ⟨"generic", [sampleDesign 3]⟩] := by
  decide

/-- C3 as amended.  The page fold is the merge by name of the reference
definition applied to the incoming buckets that have a name borne by an
existing bucket, the others being dropped.  The keyword fold takes the
incoming result set when the existing one is empty, and otherwise, for an
incoming set no longer than the existing one, is the merge by position. -/
theorem bucket_merge_as_coded (X Y : List Bucket) :
    pageBucketMerge X Y = mergeBuckets_spec X (matchedIncoming X Y) ∧
    keywordBucketMerge [] Y = (Y, false) ∧
    (X ≠ [] → Y.length ≤ X.length →
      keywordBucketMerge X Y = (mergeByPosition_spec X Y, false)) :=
  ⟨pageBucketMerge_eq_spec Y X, rfl, keywordBucketMerge_eq_spec X Y⟩

/-- Witness of the amended C3, at the result sets of its counterexample. -/
theorem bucket_merge_as_coded_witness :
    keywordBucketMerge
        [⟨"recommended", [sampleDesign 1]⟩, ⟨"generic", [sampleDesign 2]⟩]
        [⟨"generic", [sampleDesign 3]⟩] =
      (mergeByPosition_spec
        [⟨"recommended", [sampleDesign 1]⟩, ⟨"generic", [sampleDesign 2]⟩]
        [⟨"generic", [sampleDesign 3]⟩], false) :=
  (bucket_merge_as_coded
      [⟨"recommended", [sampleDesign 1]⟩, ⟨"generic", [sampleDesign 2]⟩]
      [⟨"generic", [sampleDesign 3]⟩]).2.2 (by decide) (by decide)

/-- C4.  Merging the same incoming result set a second time changes nothing,
for the keyword fold (buckets and thrown flag alike) and for the page fold. -/
theorem bucket_merge_idempotent (X Y : List Bucket) :
    keywordBucketMerge (keywordBucketMerge X Y).1 Y = keywordBucketMerge X Y ∧
    pageBucketMerge (pageBucketMerge X Y) Y = pageBucketMerge X Y :=
  ⟨keywordBucketMerge_idem X Y, pageBucketMerge_idem X Y⟩

/-- Counterexample to C5.  With e-commerce hidden, a design without a feature
map makes `handleHiddenTemplates` throw a `TypeError`, where the reference
definition keeps the design. -/
theorem handleHiddenTemplates_throws_without_features :
    handleHiddenTemplates (some ⟨some ["ecommerce"], true⟩)
        [⟨"recommended", [⟨1, false, none⟩]⟩] = .threw .TypeError ∧
    visibilityFilter_spec false true [⟨"recommended", [⟨1, false, none⟩]⟩] =
      [⟨"recommended", [⟨1, false, none⟩]⟩] := by
  decide

/-- C5 as amended.  `handleHiddenTemplates` returns the reference filter of
the result set when every design that reaches the e-commerce test has a
feature map (or e-commerce is not hidden), and throws a `TypeError`
otherwise. -/
theorem handleHiddenTemplates_characterised (vars : Option AiBuilderVars)
    (result : List Bucket) :
    handleHiddenTemplates vars result =
      if featuresReadable vars result then
        .returned (visibilityFilter_spec (hidePremiumTemplates vars)
          (hideEcommerceTemplates vars) result)
      else .threw .TypeError := by
  cases h : featuresReadable vars result with
  | true => simpa using handleHiddenTemplates_returned vars result h
  | false => simpa using handleHiddenTemplates_threw vars result h

/-- C6, evaluated at the failing input.  After page 1 was reported as the last
page, `showLoadMore` is false and no fetch is outstanding.  A further call of
`fetchAllTemplatesByPage`, with the options that `fetchTemplates` passes,
still issues a catalog request and sets `loading`; so does the top-up of a
later search that finds nothing. -/
theorem exhausted_call_issues_request :
    exhaustedState.loadMoreTemplates = { page := 1, loading := false, showLoadMore := false } ∧
    exhaustedState.requests = [.templates "cafe" 0, .allTemplates 1 9] ∧
    (fetchAllTemplatesByPage exhaustedState 1
      { searchResults := some [], templateList := some [], showLoadMoreTemplates := some false,
        _showLoadMoreTemplates := none }).requests =
      [.templates "cafe" 0, .allTemplates 1 9, .allTemplates 1 9] ∧
    (fetchAllTemplatesByPage exhaustedState 1
      { searchResults := some [], templateList := some [], showLoadMoreTemplates := some false,
        _showLoadMoreTemplates := none }).loadMoreTemplates =
      { page := 1, loading := true, showLoadMore := false } ∧
    (run sampleStepsData none exhaustedState [.search (some "tea"), .resolve 1 []]).requests =
      [.templates "cafe" 0, .allTemplates 1 9, .templates "tea" 1, .allTemplates 1 9] := by
  decide

/-- C7, evaluated at the failing input.  While the page fetch of the top-up is
outstanding (`loading` is true), a further call of `fetchAllTemplatesByPage`
issues no request but, through its `finally` block, sets `loading` to false;
the call after that passes the guard, and two page fetches are outstanding.
The same happens in the component when two later searches find nothing and
each makes its top-up call. -/
theorem reentrant_call_clears_loading :
    loadingState.loadMoreTemplates.loading = true ∧
    loadingState.pageFetches.length = 1 ∧
    (fetchAllTemplatesByPage loadingState 1 PageOptions.empty).requests = loadingState.requests ∧
    (fetchAllTemplatesByPage loadingState 1 PageOptions.empty).pageFetches.length = 1 ∧
    (fetchAllTemplatesByPage loadingState 1 PageOptions.empty).loadMoreTemplates.loading = false ∧
    (fetchAllTemplatesByPage (fetchAllTemplatesByPage loadingState 1 PageOptions.empty) 1
      PageOptions.empty).pageFetches.length = 2 ∧
    (run sampleStepsData none loadingState
      [.search (some "tea"), .resolve 1 []]).loadMoreTemplates.loading = false ∧
    (run sampleStepsData none loadingState
      [.search (some "tea"), .resolve 1 []]).pageFetches.length = 1 ∧
    (run sampleStepsData none loadingState
      [.search (some "tea"), .resolve 1 [], .search (some "inn"), .resolve 2 []]).pageFetches.length
      = 2 := by
  decide

/-- Counterexample to C10.  The search for `b` started, aborting controller 0
of the search for `a`, and its result of four designs was published.  When the
call of the superseded search for `a` then resolves, its result is published
in place of that state: the flat list and the buckets hold design 9 alone. -/
theorem stale_resolution_overwrites :
    supersededState.templateList.map (fun d => d.uuid) = [1, 2, 3, 4] ∧
    supersededState.aborted = [0] ∧
    (step sampleStepsData none supersededState
      (.resolve 0 [⟨"recommended", [sampleDesign 9]⟩])).templateList = [sampleDesign 9] ∧
    (step sampleStepsData none supersededState
      (.resolve 0 [⟨"recommended", [sampleDesign 9]⟩])).templateSearchResults =
      [⟨"recommended", [sampleDesign 9]⟩] := by
  decide

/-- C10 as amended.  A call that settles by rejecting, with `AbortError` or any
other error, leaves the flat list and the buckets as they are; the start of a
search calls `abort()` on every controller of `abortRequest.current`; and a
call that resolves, of whatever generation, publishes the lists of its own
generation folded with its result. -/
theorem stale_settlement (stepsData : StepsData) (vars : Option AiBuilderVars) (s : State)
    (c : Nat) :
    (∀ e, (step stepsData vars s (.reject c e)).templateList = s.templateList ∧
      (step stepsData vars s (.reject c e)).templateSearchResults = s.templateSearchResults) ∧
    (∀ keyword, keyword ≠ "" →
      ∀ c1 ∈ s.abortRequest, c1 ∈ (step stepsData vars s (.search (some keyword))).aborted) ∧
    (∀ g gen response result, findGeneration c s.generations = some g →
      s.generations.get? g = some gen →
      handleHiddenTemplates vars response = .returned result →
      (keywordBucketMerge gen.results result).2 = false →
      (step stepsData vars s (.resolve c response)).templateList =
        keywordFlatMerge gen.allTemplatesList result ∧
      (step stepsData vars s (.resolve c response)).templateSearchResults =
        (keywordBucketMerge gen.results result).1) := by
  refine ⟨fun e => step_reject_store stepsData vars s c e, ?_, ?_⟩
  · intro keyword h c1 hc1
    exact (fetchTemplates_of_nonempty stepsData s keyword h).2.2.2 c1 hc1
  · intro g gen response result hfind hget hfilter hmerge
    exact step_resolve_store stepsData vars s c g gen response result hfind hget hfilter hmerge

/-- Witness of the amended C10: the start of the search for `b` aborts
controller 0 of the search for `a`. -/
theorem stale_settlement_witness :
    0 ∈ (step sampleStepsData none
      (run sampleStepsData none State.initial [.search (some "a")])
      (.search (some "b"))).aborted :=
  (stale_settlement sampleStepsData none
    (run sampleStepsData none State.initial [.search (some "a")]) 0).2.1 "b" (by decide) 0
    (by decide)

end SelectTemplate
